import Mathlib

/-!
Shallow embedding of `src/ayumi/ayumi.py` (the Ayumi logging facility).

The Python module defines a class `Ayumi` with class-level broker-channel
slots (`pika_channel`, `rabbitpy_channel`), six severity-named emission
classmethods (`notset`, `debug`, `info`, `warning`, `critical`, `error`),
a console helper `_console`, a broker helper `_publish`, and stack
introspection helpers (`get_calling_details`, `get_base_filename`).

Modelling conventions:
* The mutable class-level channel slots become an explicit `AyumiState`
  record threaded through the functions; `None` becomes `Option.none`.
* Values resolved from the hosting environment at call time (the live call
  stack seen by `inspect.stack()`, `getuser()`, `getfqdn()`, `int(time())`,
  whether `pika`/`rabbitpy` imported, and whether a given channel's publish
  call raises) are collected in an `Env` record.
* Python exceptions become explicit error values: `inspect` failures in
  `get_calling_details` (IndexError / AttributeError) become `CtxError`;
  a failed `getattr(cls.logger, name)` and a raising broker publish become
  `EmitError` values.  A raised exception aborts the rest of the call, as
  in Python.
* Frame introspection (`currentframe().f_back.f_code.co_name`) is modelled
  by passing the calling method's name explicitly: each severity method
  passes its own name to `_console` and `_publish`.
* Side effects (the hand-off to the logging backend, and broker publish
  calls) are reified as an `Event` trace in the order they occur.
* The argument of `json.dumps` is kept as a structured `JValue`; the
  distinction the claims care about (field set, string vs `null`) is fully
  visible at this level.
-/

namespace Ayumi

/-- A primitive JSON value: the dict `_publish` hands to `json.dumps` maps
each key to a string or to `None` (serialized `null`). -/
inductive JPrim where
  | null
  | str (s : String)
deriving DecidableEq, Repr

/-- The argument of `json.dumps` in `_publish`: a JSON object (Python
dict, insertion-ordered) with primitive values. -/
structure JObject where
  fields : List (String × JPrim)
deriving DecidableEq, Repr

/-- Which broker client library a publish goes through: `pika` (primary)
or `rabbitpy` (legacy). -/
inductive BrokerKind where
  | pika
  | rabbitpy
deriving DecidableEq, Repr

/-- Result of `Ayumi.get_headers()`: `{"user": getuser(), "host": getfqdn()}`. -/
structure Headers where
  user : String
  host : String
deriving DecidableEq, Repr

/-- The `__file__`-relevant part of a Python module object, as used by
`get_calling_details` (`module.__file__`); `file = none` models a module
without a `__file__` attribute (AttributeError on access). -/
structure PyModule where
  file : Option String
deriving DecidableEq, Repr

/-- One record of `inspect.stack()`: the function name at that frame
(`frame[3]`) and the result of `inspect.getmodule(frame[0])`
(`module = none` models `getmodule` returning `None`). -/
structure Frame where
  functionname : String
  module : Option PyModule
deriving DecidableEq, Repr

/-- Failure of `get_calling_details`: `indexError` for `stack()[level]`
out of range, `attributeError` for `module.__file__` when the owning
module cannot be determined or has no file. -/
inductive CtxError where
  | indexError
  | attributeError
deriving DecidableEq, Repr

/-- An exception escaping an emission call. -/
inductive EmitError where
  | ctx (e : CtxError)
  | attr (nm : String)
  | publishFailure (k : BrokerKind)
deriving DecidableEq, Repr

/-- One broker publish attempt, with the arguments the code passes to
`basic_publish` (pika) or `rabbitpy.Message`/`publish` (rabbitpy).
`body` is the structured argument handed to `json.dumps`. -/
structure PublishEvent (χ : Type) where
  kind : BrokerKind
  channel : χ
  exchange : String
  routing_key : String
  body : JObject
  content_type : String
  delivery_mode : Nat
  headers : Headers
  timestamp : Int
deriving DecidableEq, Repr

/-- An observable action of an emission call, in order: the hand-off of a
rendered line to the logging backend method named `levelName`, or a broker
publish attempt. -/
inductive Event (χ : Type) where
  | console (levelName : String) (line : String)
  | publish (p : PublishEvent χ)
deriving DecidableEq, Repr

/-- The hosting environment at the time of one emission call, parametrised
by the channel-handle type `χ`. `stk` is the list `inspect.stack()` as
seen inside `get_calling_details`; `pikaPublishOk c` (resp.
`rabbitpyPublishOk c`) is whether the publish call on channel `c` returns
normally rather than raising. -/
structure Env (χ : Type) where
  pikaImported : Bool
  rabbitpyImported : Bool
  stk : List Frame
  user : String
  host : String
  now : Int
  pikaPublishOk : χ → Bool
  rabbitpyPublishOk : χ → Bool

/-- The class-level mutable state of `Ayumi`: the two broker-channel
slots (`pika_channel`, `rabbitpy_channel`), `None` = `Option.none`. -/
structure AyumiState (χ : Type) where
  pika_channel : Option χ
  rabbitpy_channel : Option χ
deriving DecidableEq, Repr

/-- What one emission call produced: its event trace, the exception that
escaped it (if any), and the class state after the call. -/
structure EmitResult (χ : Type) where
  events : List (Event χ)
  err : Option EmitError
  state : AyumiState χ

/-- Module-level default `_EXCHANGE = "logs-gateway"`. -/
def _EXCHANGE : String := "logs-gateway"

def RED : String := "\x1b[31m"

def GREEN : String := "\x1b[32m"

def YELLOW : String := "\x1b[33m"

def BLUE : String := "\x1b[34m"

def MAGENTA : String := "\x1b[35m"

def CYAN : String := "\x1b[36m"

def LRED : String := "\x1b[91m"

def LGREEN : String := "\x1b[92m"

def LYELLOW : String := "\x1b[93m"

def LBLUE : String := "\x1b[94m"

def LMAGENTA : String := "\x1b[95m"

def LCYAN : String := "\x1b[96m"

def _ENDC : String := "\x1b[0m"

/-- The default console template `"[{filename}:{functionname}]: {msg}"`
applied to its three arguments (`_CONSOLE_FORMAT.format(...)`). -/
def _CONSOLE_FORMAT_fmt (filename functionname msg : String) : String :=
  "[" ++ filename ++ ":" ++ functionname ++ "]: " ++ msg

/-- The default stack depth of `get_calling_details` (`level: int = 3`). -/
def CONTEXT_DEPTH : Nat := 3

/-- Severity-named level methods available on Python's
`logging.Logger` (the target of `getattr(cls.logger, name)` in
`_console`).  This models the standard-library logging backend, an
external collaborator of the code: `logging.Logger` defines `debug`,
`info`, `warning`, `warn`, `error`, `exception`, `critical`, `fatal` and
`log`, and has no `notset` or `trace` method. -/
def loggerMethods : List String :=
  ["debug", "info", "warning", "warn", "error", "exception", "critical",
   "fatal", "log"]

/-- The names of the emission entry points defined on the `Ayumi` class,
in source order (`notset`, `debug`, `info`, `warning`, `critical`,
`error`). -/
def emissionMethods : List String :=
  ["notset", "debug", "info", "warning", "critical", "error"]

/-- Accumulator pass for `basename`: keeps the characters seen since the
last `/`. -/
def basenameAux (acc : List Char) : List Char → List Char
  | [] => acc
  | c :: cs =>
    if c = '/' then basenameAux [] cs else basenameAux (acc ++ [c]) cs

/-- `os.path.basename` (POSIX): the part of the path after its last `/`. -/
def basename (p : String) : String :=
  String.mk (basenameAux [] p.data)

/-- Python's `str.lower()` on the strings this code lowers (ASCII method
names): ASCII lower-casing character by character. -/
def strLower (s : String) : String :=
  String.mk (s.data.map Char.toLower)

/-- `Ayumi.get_base_filename`. -/
def get_base_filename (filename : String) : String :=
  basename filename

/-- `Ayumi.get_calling_details(level)`: `frame = stack()[level]`
(IndexError when out of range), `functionname = str(frame[3])`,
`module = getmodule(frame[0])`, `filename = get_base_filename(module.__file__)`
(AttributeError when `module` is `None` or has no `__file__`). -/
def get_calling_details (stk : List Frame) (level : Nat) :
    Except CtxError (String × String) :=
  match stk.get? level with
  | none => Except.error CtxError.indexError
  | some frame =>
    match frame.module with
    | none => Except.error CtxError.attributeError
    | some m =>
      match m.file with
      | none => Except.error CtxError.attributeError
      | some f => Except.ok (get_base_filename f, frame.functionname)

/-- The line `_console` hands to the logger:
`"{}{}{}".format(color, _CONSOLE_FORMAT.format(filename=..., functionname=..., msg=...), cls._ENDC)`. -/
def consoleLine (color filename functionname msg : String) : String :=
  color ++ _CONSOLE_FORMAT_fmt filename functionname msg ++ _ENDC

/-- `Ayumi._console(msg, color)`: resolves calling details (propagating
its failure), then calls `getattr(cls.logger, callerName)(line)` where
`callerName` is the `co_name` of the calling frame (the severity method);
`getattr` raises AttributeError when the logger has no such method. -/
def _console {χ : Type} (env : Env χ) (callerName msg color : String) :
    Except EmitError (Event χ) :=
  match get_calling_details env.stk CONTEXT_DEPTH with
  | Except.error e => Except.error (EmitError.ctx e)
  | Except.ok details =>
    if callerName ∈ loggerMethods then
      Except.ok (Event.console callerName
        (consoleLine color details.1 details.2 msg))
    else
      Except.error (EmitError.attr callerName)

/-- `Ayumi.get_headers()`. -/
def get_headers {χ : Type} (env : Env χ) : Headers :=
  { user := env.user, host := env.host }

/-- The argument of `json.dumps` in `_publish`: the dict
`{"body": msg, "color": color}` after `if not color: color = None`
(an empty string is falsy in Python). -/
def payload (msg color : String) : JObject :=
  { fields :=
      [("body", JPrim.str msg),
       ("color", if color = "" then JPrim.null else JPrim.str color)] }

/-- The publish attempt of the pika branch of `_publish`:
`basic_publish(body=dumps(...), exchange=_EXCHANGE, routing_key=co_name.lower(), properties=BasicProperties(content_type="application/json", delivery_mode=2, headers=get_headers(), timestamp=int(time())))`. -/
def pikaEvent {χ : Type} (env : Env χ) (c : χ) (callerName msg color : String) :
    PublishEvent χ :=
  { kind := BrokerKind.pika
    channel := c
    exchange := _EXCHANGE
    routing_key := strLower callerName
    body := payload msg color
    content_type := "application/json"
    delivery_mode := 2
    headers := get_headers env
    timestamp := env.now }

/-- The publish attempt of the rabbitpy branch of `_publish`:
`rabbitpy.Message(channel, dumps(...), properties={...}).publish(_EXCHANGE, co_name.lower())`. -/
def rabbitpyEvent {χ : Type} (env : Env χ) (c : χ) (callerName msg color : String) :
    PublishEvent χ :=
  { kind := BrokerKind.rabbitpy
    channel := c
    exchange := _EXCHANGE
    routing_key := strLower callerName
    body := payload msg color
    content_type := "application/json"
    delivery_mode := 2
    headers := get_headers env
    timestamp := env.now }

/-- The pika block of `_publish`: guarded by
`if _PIKA_IMPORTED and cls.pika_channel:`; returns the attempt made (if
any) and the exception the publish call raised (if any). -/
def pikaAttempt {χ : Type} (env : Env χ) (st : AyumiState χ)
    (callerName msg color : String) : List (Event χ) × Option EmitError :=
  if env.pikaImported then
    match st.pika_channel with
    | some c =>
      ([Event.publish (pikaEvent env c callerName msg color)],
       if env.pikaPublishOk c then none
       else some (EmitError.publishFailure BrokerKind.pika))
    | none => ([], none)
  else ([], none)

/-- The rabbitpy block of `_publish`: guarded by
`if _RABBITPY_IMPORTED and cls.rabbitpy_channel:`. -/
def rabbitpyAttempt {χ : Type} (env : Env χ) (st : AyumiState χ)
    (callerName msg color : String) : List (Event χ) × Option EmitError :=
  if env.rabbitpyImported then
    match st.rabbitpy_channel with
    | some c =>
      ([Event.publish (rabbitpyEvent env c callerName msg color)],
       if env.rabbitpyPublishOk c then none
       else some (EmitError.publishFailure BrokerKind.rabbitpy))
    | none => ([], none)
  else ([], none)

/-- `Ayumi._publish(msg, color)`: the pika block runs first; an exception
raised there aborts the method (the rabbitpy block is not reached and the
exception propagates), otherwise the rabbitpy block runs.  `callerName`
is the `co_name` of the calling frame (the severity method), used for the
routing key. -/
def _publish {χ : Type} (env : Env χ) (st : AyumiState χ)
    (callerName msg color : String) : List (Event χ) × Option EmitError :=
  let p := pikaAttempt env st callerName msg color
  match p.2 with
  | some e => (p.1, some e)
  | none =>
    let r := rabbitpyAttempt env st callerName msg color
    (p.1 ++ r.1, r.2)

/-- The shared body of every severity method:
`cls._console(msg, color)` then `cls._publish(msg, color)`, each seeing
the severity method's name as its calling frame's `co_name`; an exception
from `_console` aborts the call before any publish; no severity method
assigns to the channel slots. -/
def emitNamed {χ : Type} (env : Env χ) (st : AyumiState χ)
    (name msg color : String) : EmitResult χ :=
  match _console env name msg color with
  | Except.error e => { events := [], err := some e, state := st }
  | Except.ok ev =>
    let p := _publish env st name msg color
    { events := ev :: p.1, err := p.2, state := st }

/-- `Ayumi.set_pika_channel(channel)`. -/
def set_pika_channel {χ : Type} (st : AyumiState χ) (c : Option χ) :
    AyumiState χ :=
  { st with pika_channel := c }

/-- `Ayumi.set_rabbitpy_channel(channel)`. -/
def set_rabbitpy_channel {χ : Type} (st : AyumiState χ) (c : Option χ) :
    AyumiState χ :=
  { st with rabbitpy_channel := c }

/-- `Ayumi.notset(msg, color="")`. -/
def notset {χ : Type} (env : Env χ) (st : AyumiState χ) (msg color : String) :
    EmitResult χ :=
  emitNamed env st "notset" msg color

/-- `Ayumi.debug(msg, color="")`. -/
def debug {χ : Type} (env : Env χ) (st : AyumiState χ) (msg color : String) :
    EmitResult χ :=
  emitNamed env st "debug" msg color

/-- `Ayumi.info(msg, color="")`. -/
def info {χ : Type} (env : Env χ) (st : AyumiState χ) (msg color : String) :
    EmitResult χ :=
  emitNamed env st "info" msg color

/-- `Ayumi.warning(msg, color="")`. -/
def warning {χ : Type} (env : Env χ) (st : AyumiState χ) (msg color : String) :
    EmitResult χ :=
  emitNamed env st "warning" msg color

/-- `Ayumi.critical(msg, color="")`. -/
def critical {χ : Type} (env : Env χ) (st : AyumiState χ) (msg color : String) :
    EmitResult χ :=
  emitNamed env st "critical" msg color

/-- `Ayumi.error(msg, color="")`. -/
def error {χ : Type} (env : Env χ) (st : AyumiState χ) (msg color : String) :
    EmitResult χ :=
  emitNamed env st "error" msg color

/-!
Concrete fixtures used to instantiate hypotheses of the theorems below.
`stkOk` is a call stack as `get_calling_details` sees it when a function
`build` in `/app/main.py` calls an emission method: index 0 is
`get_calling_details` itself, 1 is `_console`, 2 is the severity method,
3 is the caller.
-/

def ayumiFile : Option PyModule := some { file := some "/app/ayumi/ayumi.py" }

def stkOk : List Frame :=
  [{ functionname := "get_calling_details", module := ayumiFile },
   { functionname := "_console", module := ayumiFile },
   { functionname := "info", module := ayumiFile },
   { functionname := "build", module := some { file := some "/app/main.py" } }]

/-- Both libraries imported, deep-enough stack, all publishes succeed. -/
def envOk : Env Nat :=
  { pikaImported := true
    rabbitpyImported := true
    stk := stkOk
    user := "alice"
    host := "host.example.com"
    now := 1700000000
    pikaPublishOk := fun _ => true
    rabbitpyPublishOk := fun _ => true }

/-- Like `envOk` but every pika publish raises. -/
def envPikaFails : Env Nat :=
  { envOk with pikaPublishOk := fun _ => false }

/-- Like `envOk` but the stack is empty (shallower than depth 3). -/
def envShallow : Env Nat :=
  { envOk with stk := [] }

/-- Both broker channels attached (handles 1 and 2). -/
def stBoth : AyumiState Nat :=
  { pika_channel := some 1, rabbitpy_channel := some 2 }

/-- No broker channel attached. -/
def stNone : AyumiState Nat :=
  { pika_channel := none, rabbitpy_channel := none }

/-!  Helper lemmas shared by the claim theorems. -/

theorem mem_pikaAttempt {χ : Type} {env : Env χ} {st : AyumiState χ}
    {n m col : String} {e : Event χ} :
    e ∈ (pikaAttempt env st n m col).1 ↔
      env.pikaImported = true ∧ ∃ c, st.pika_channel = some c ∧
        e = Event.publish (pikaEvent env c n m col) := by
  unfold pikaAttempt
  cases hpi : env.pikaImported <;> cases hpc : st.pika_channel <;> simp

theorem mem_rabbitpyAttempt {χ : Type} {env : Env χ} {st : AyumiState χ}
    {n m col : String} {e : Event χ} :
    e ∈ (rabbitpyAttempt env st n m col).1 ↔
      env.rabbitpyImported = true ∧ ∃ c, st.rabbitpy_channel = some c ∧
        e = Event.publish (rabbitpyEvent env c n m col) := by
  unfold rabbitpyAttempt
  cases hpi : env.rabbitpyImported <;> cases hpc : st.rabbitpy_channel <;> simp

theorem mem_publish_split {χ : Type} {env : Env χ} {st : AyumiState χ}
    {n m col : String} {e : Event χ} :
    e ∈ (_publish env st n m col).1 ↔
      (e ∈ (pikaAttempt env st n m col).1 ∨
       ((pikaAttempt env st n m col).2 = none ∧
        e ∈ (rabbitpyAttempt env st n m col).1)) := by
  unfold _publish
  cases h2 : (pikaAttempt env st n m col).2 <;> simp [h2]

/-- Every publish attempt of `_publish` is the pika event on the attached
pika channel or the rabbitpy event on the attached rabbitpy channel. -/
theorem eq_of_mem_publish {χ : Type} {env : Env χ} {st : AyumiState χ}
    {n m col : String} {e : Event χ}
    (he : e ∈ (_publish env st n m col).1) :
    (∃ c, st.pika_channel = some c ∧
       e = Event.publish (pikaEvent env c n m col)) ∨
    (∃ c, st.rabbitpy_channel = some c ∧
       e = Event.publish (rabbitpyEvent env c n m col)) := by
  rcases mem_publish_split.mp he with h | ⟨_, h⟩
  · rcases mem_pikaAttempt.mp h with ⟨_, c, hc, he⟩
    exact Or.inl ⟨c, hc, he⟩
  · rcases mem_rabbitpyAttempt.mp h with ⟨_, c, hc, he⟩
    exact Or.inr ⟨c, hc, he⟩

/-- The event trace of `emitNamed` is empty (console failed), or the
console event followed by the publish attempts. -/
theorem emitNamed_events_split {χ : Type} (env : Env χ) (st : AyumiState χ)
    (n m col : String) :
    ((emitNamed env st n m col).events = [] ∧
       ∃ e, _console env n m col = Except.error e ∧
         (emitNamed env st n m col).err = some e) ∨
    (∃ ev, _console env n m col = Except.ok ev ∧
       (emitNamed env st n m col).events = ev :: (_publish env st n m col).1 ∧
       (emitNamed env st n m col).err = (_publish env st n m col).2) := by
  unfold emitNamed
  cases h : _console env n m col with
  | error e => exact Or.inl ⟨rfl, e, rfl, rfl⟩
  | ok ev => exact Or.inr ⟨ev, rfl, rfl, rfl⟩

/-- Claim C1: every broker publish attempt carries as its body (the
argument of `json.dumps`) the JSON object with exactly the two fields
`body` and `color`, where `body` is the message, `color` is the given
color, and an empty-string color is serialized as `null` — never as the
JSON string `""`. -/
theorem publish_body_shape {χ : Type} (env : Env χ) (st : AyumiState χ)
    (name msg color : String) (e : PublishEvent χ)
    (he : Event.publish e ∈ (_publish env st name msg color).1) :
    e.body.fields.map Prod.fst = ["body", "color"]
    ∧ e.body.fields.lookup "body" = some (JPrim.str msg)
    ∧ e.body.fields.lookup "color"
        = some (if color = "" then JPrim.null else JPrim.str color)
    ∧ e.body.fields.lookup "color" ≠ some (JPrim.str "") := by
  have hb : e.body = payload msg color := by
    rcases eq_of_mem_publish he with ⟨c, _, hev⟩ | ⟨c, _, hev⟩ <;>
      (cases hev; rfl)
  rw [hb]
  refine ⟨by simp [payload], by simp [payload, List.lookup], ?_, ?_⟩
  · by_cases hc : color = "" <;> simp [payload, List.lookup, hc]
  · by_cases hc : color = "" <;> simp [payload, List.lookup, hc]

/-- Witness for C1 at a concrete input: empty color on an attached pika
sink yields the `null` color field. -/
theorem publish_body_shape_witness :
    (pikaEvent envOk 1 "info" "hi" "").body.fields.map Prod.fst
      = ["body", "color"] :=
  (publish_body_shape envOk stBoth "info" "hi" ""
    (pikaEvent envOk 1 "info" "hi" "")
    (mem_publish_split.mpr
      (Or.inl (mem_pikaAttempt.mpr ⟨rfl, 1, rfl, rfl⟩)))).1

/-- Claim C2 counterexample: with an empty color the rendered console
line is not the bare template output and is not free of ANSI codes —
`_console` appends the reset escape `\x1b[0m` unconditionally, so the
escape character occurs in the line even when no color is given. -/
theorem console_empty_color_counterexample :
    (consoleLine "" "main.py" "build" "hi"
        = _CONSOLE_FORMAT_fmt "main.py" "build" "hi") = False
    ∧ Char.ofNat 27 ∈ (consoleLine "" "main.py" "build" "hi").data := by
  constructor
  · simp only [eq_iff_iff, iff_false]
    decide
  · decide

/-- Claim C2 amended: the rendered console line always ends with the
reset escape, whatever the color; with color C it starts with C's escape
text, and with an empty color it is exactly the template output followed
by the reset escape (so the line is never free of ANSI codes). -/
theorem console_line_wrapping (color filename functionname msg : String) :
    (∃ rest, consoleLine color filename functionname msg = color ++ rest)
    ∧ (∃ front, consoleLine color filename functionname msg = front ++ _ENDC)
    ∧ (color = "" → consoleLine color filename functionname msg
         = _CONSOLE_FORMAT_fmt filename functionname msg ++ _ENDC) := by
  refine ⟨⟨_CONSOLE_FORMAT_fmt filename functionname msg ++ _ENDC, ?_⟩,
    ⟨color ++ _CONSOLE_FORMAT_fmt filename functionname msg, rfl⟩, ?_⟩
  · simp [consoleLine, String.append_assoc]
  · intro h
    simp [consoleLine, h]

/-- Witness for C2's amended theorem at a concrete input: the empty-color
line for `build`/`main.py`/`hi` is the template output plus the reset. -/
theorem console_line_wrapping_witness :
    consoleLine "" "main.py" "build" "hi"
      = _CONSOLE_FORMAT_fmt "main.py" "build" "hi" ++ _ENDC :=
  (console_line_wrapping "" "main.py" "build" "hi").2.2 rfl

/-- Claim C3 counterexample: the class defines no `trace` emission
method — the entry points are notset, debug, info, warning, critical and
error. -/
theorem trace_method_missing :
    emissionMethods.contains "trace" = false
    ∧ emissionMethods.contains "notset" = true := by
  decide

/-- Claim C3 amended: the emission API exposes exactly one entry point
per name for notset, debug, info, warning, critical and error — six
distinct methods, with no `trace` — each taking a message and a color
that defaults to the empty string, and each running the shared
console-then-publish body under its own name. -/
theorem emission_api_surface {χ : Type} (env : Env χ) (st : AyumiState χ)
    (msg color : String) :
    emissionMethods.Nodup ∧ emissionMethods.length = 6
    ∧ emissionMethods.contains "trace" = false
    ∧ notset env st msg color = emitNamed env st "notset" msg color
    ∧ debug env st msg color = emitNamed env st "debug" msg color
    ∧ info env st msg color = emitNamed env st "info" msg color
    ∧ warning env st msg color = emitNamed env st "warning" msg color
    ∧ critical env st msg color = emitNamed env st "critical" msg color
    ∧ error env st msg color = emitNamed env st "error" msg color :=
  ⟨by decide, by decide, by decide, rfl, rfl, rfl, rfl, rfl, rfl⟩

theorem console_error_shape {χ : Type} {env : Env χ} {n m col : String}
    {e : EmitError} (h : _console env n m col = Except.error e) :
    (∃ ce, e = EmitError.ctx ce) ∨ e = EmitError.attr n := by
  unfold _console at h
  cases hg : get_calling_details env.stk CONTEXT_DEPTH with
  | error ce =>
    rw [hg] at h
    injection h with h
    exact Or.inl ⟨ce, h.symm⟩
  | ok d =>
    rw [hg] at h
    by_cases hm : n ∈ loggerMethods
    · simp [hm] at h
    · simp [hm] at h
      exact Or.inr h.symm

theorem console_ok_shape {χ : Type} {env : Env χ} {n m col : String}
    {ev : Event χ} (h : _console env n m col = Except.ok ev) :
    ∃ d, get_calling_details env.stk CONTEXT_DEPTH = Except.ok d ∧
      n ∈ loggerMethods ∧ ev = Event.console n (consoleLine col d.1 d.2 m) := by
  unfold _console at h
  cases hg : get_calling_details env.stk CONTEXT_DEPTH with
  | error ce =>
    rw [hg] at h
    simp at h
  | ok d =>
    rw [hg] at h
    by_cases hm : n ∈ loggerMethods
    · simp [hm] at h
      exact ⟨d, rfl, hm, h.symm⟩
    · simp [hm] at h

/-- Claim C4 counterexample: with both libraries imported and both
channels attached, a raising pika publish leaves the pika attempt as the
only publish attempt — the rabbitpy sink is never tried, even though it
is attached. -/
theorem pika_failure_blocks_rabbitpy :
    (_publish envPikaFails stBoth "error" "m" "").1
      = [Event.publish (pikaEvent envPikaFails 1 "error" "m" "")]
    ∧ (_publish envPikaFails stBoth "error" "m" "").2
      = some (EmitError.publishFailure BrokerKind.pika)
    ∧ stBoth.rabbitpy_channel = some 2
    ∧ envPikaFails.rabbitpyImported = true :=
  ⟨rfl, rfl, rfl, rfl⟩

/-- Claim C4 amended: the absence of one broker sink never blocks the
other sink's publish attempt, and the pika attempt (made first) is
unaffected by anything the rabbitpy publish does; but a failure raised by
the pika publish propagates immediately, so the rabbitpy sink gets no
publish attempt in that call. -/
theorem publish_sink_independence {χ : Type} (env : Env χ)
    (st : AyumiState χ) (name msg color : String) :
    (∀ c, st.pika_channel = none → env.rabbitpyImported = true →
       st.rabbitpy_channel = some c →
       Event.publish (rabbitpyEvent env c name msg color)
         ∈ (_publish env st name msg color).1)
    ∧ (∀ c, st.rabbitpy_channel = none → env.pikaImported = true →
       st.pika_channel = some c →
       Event.publish (pikaEvent env c name msg color)
         ∈ (_publish env st name msg color).1)
    ∧ (∀ c, env.pikaImported = true → st.pika_channel = some c →
       Event.publish (pikaEvent env c name msg color)
         ∈ (_publish env st name msg color).1)
    ∧ (∀ c, env.pikaImported = true → st.pika_channel = some c →
       env.pikaPublishOk c = false →
       ∀ e : PublishEvent χ,
         Event.publish e ∈ (_publish env st name msg color).1 →
         e.kind = BrokerKind.pika) := by
  refine ⟨?_, ?_, ?_, ?_⟩
  · intro c hpn hri hrc
    have hp2 : (pikaAttempt env st name msg color).2 = none := by
      unfold pikaAttempt
      cases env.pikaImported <;> simp [hpn]
    exact mem_publish_split.mpr
      (Or.inr ⟨hp2, mem_rabbitpyAttempt.mpr ⟨hri, c, hrc, rfl⟩⟩)
  · intro c _ hpi hpc
    exact mem_publish_split.mpr
      (Or.inl (mem_pikaAttempt.mpr ⟨hpi, c, hpc, rfl⟩))
  · intro c hpi hpc
    exact mem_publish_split.mpr
      (Or.inl (mem_pikaAttempt.mpr ⟨hpi, c, hpc, rfl⟩))
  · intro c hpi hpc hfail e he
    have hp2 : (pikaAttempt env st name msg color).2
        = some (EmitError.publishFailure BrokerKind.pika) := by
      unfold pikaAttempt
      simp [hpi, hpc, hfail]
    rcases mem_publish_split.mp he with h | ⟨hnone, _⟩
    · rcases mem_pikaAttempt.mp h with ⟨_, c2, _, hev⟩
      simp only [Event.publish.injEq] at hev
      rw [hev]
      rfl
    · rw [hp2] at hnone
      cases hnone

/-- Witness for C4's amended theorem: with pika failing on an attached
channel, the pika publish attempt is still in the trace. -/
theorem publish_sink_independence_witness :
    Event.publish (pikaEvent envPikaFails 1 "error" "m" "")
      ∈ (_publish envPikaFails stBoth "error" "m" "").1 :=
  (publish_sink_independence envPikaFails stBoth "error" "m" "").2.2.1 1 rfl rfl

/-- Claim C5: within one emission call the console hand-off strictly
precedes every broker publish attempt — whenever any publish event is in
the trace, the trace begins with the console event and the publish
attempts all come after it — and if the call ends with a publish
failure, the already produced console event is still at the head of the
trace (not rolled back). -/
theorem console_before_publish {χ : Type} (env : Env χ) (st : AyumiState χ)
    (name msg color : String) :
    (∀ e : PublishEvent χ,
       Event.publish e ∈ (emitNamed env st name msg color).events →
       ∃ lv line rest,
         (emitNamed env st name msg color).events
           = Event.console lv line :: rest
         ∧ Event.publish e ∈ rest)
    ∧ (∀ k, (emitNamed env st name msg color).err
         = some (EmitError.publishFailure k) →
       ∃ lv line rest,
         (emitNamed env st name msg color).events
           = Event.console lv line :: rest) := by
  rcases emitNamed_events_split env st name msg color with
    ⟨hev, e0, hc, herr⟩ | ⟨ev, hc, hev, herr⟩
  · constructor
    · intro e he
      rw [hev] at he
      cases he
    · intro k hk
      rw [herr] at hk
      injection hk with hk
      rcases console_error_shape hc with ⟨ce, hce⟩ | hce <;>
        (rw [hce] at hk; cases hk)
  · rcases console_ok_shape hc with ⟨d, _, _, hshape⟩
    constructor
    · intro e he
      rw [hev] at he
      rcases List.mem_cons.mp he with h | h
      · rw [hshape] at h
        cases h
      · exact ⟨name, consoleLine color d.1 d.2 msg, _,
          by rw [hev, hshape], h⟩
    · intro k _
      exact ⟨name, consoleLine color d.1 d.2 msg, _,
        by rw [hev, hshape]⟩

/-- Witness for C5 at a concrete input: the call on `envPikaFails` ends
in a pika publish failure and its trace still starts with the console
event. -/
theorem console_before_publish_witness :
    ∃ lv line rest,
      (emitNamed envPikaFails stBoth "error" "m" "").events
        = Event.console lv line :: rest :=
  (console_before_publish envPikaFails stBoth "error" "m" "").2
    BrokerKind.pika rfl

theorem publish_mem_emitNamed {χ : Type} {env : Env χ} {st : AyumiState χ}
    {n m col : String} {e : PublishEvent χ}
    (h : Event.publish e ∈ (emitNamed env st n m col).events) :
    Event.publish e ∈ (_publish env st n m col).1 := by
  rcases emitNamed_events_split env st n m col with
    ⟨hev, _⟩ | ⟨ev, hc, hev, _⟩
  · rw [hev] at h
    cases h
  · rw [hev] at h
    rcases List.mem_cons.mp h with h | h
    · rcases console_ok_shape hc with ⟨d, _, _, hshape⟩
      rw [hshape] at h
      cases h
    · exact h

theorem pikaAttempt_snd_some {χ : Type} {env : Env χ} {st : AyumiState χ}
    {n m col : String} {e : EmitError}
    (h : (pikaAttempt env st n m col).2 = some e) :
    e = EmitError.publishFailure BrokerKind.pika
    ∧ env.pikaImported = true
    ∧ ∃ c, st.pika_channel = some c ∧ env.pikaPublishOk c = false := by
  cases hpi : env.pikaImported <;> cases hpc : st.pika_channel <;>
    simp [pikaAttempt, hpi, hpc] at h
  case true.some c =>
    cases hok : env.pikaPublishOk c <;> simp [hok] at h
    exact ⟨h.symm, rfl, c, rfl, hok⟩

theorem rabbitpyAttempt_snd_some {χ : Type} {env : Env χ} {st : AyumiState χ}
    {n m col : String} {e : EmitError}
    (h : (rabbitpyAttempt env st n m col).2 = some e) :
    e = EmitError.publishFailure BrokerKind.rabbitpy
    ∧ env.rabbitpyImported = true
    ∧ ∃ c, st.rabbitpy_channel = some c ∧ env.rabbitpyPublishOk c = false := by
  cases hpi : env.rabbitpyImported <;> cases hpc : st.rabbitpy_channel <;>
    simp [rabbitpyAttempt, hpi, hpc] at h
  case true.some c =>
    cases hok : env.rabbitpyPublishOk c <;> simp [hok] at h
    exact ⟨h.symm, rfl, c, rfl, hok⟩

/-- The escaping exception of `_publish`, when there is one, is a publish
failure from a branch whose channel is attached. -/
theorem publish_err_cases {χ : Type} {env : Env χ} {st : AyumiState χ}
    {n m col : String} {k : BrokerKind}
    (h : (_publish env st n m col).2 = some (EmitError.publishFailure k)) :
    (k = BrokerKind.pika ∧ st.pika_channel.isSome = true)
    ∨ (k = BrokerKind.rabbitpy ∧ st.rabbitpy_channel.isSome = true) := by
  unfold _publish at h
  cases h2 : (pikaAttempt env st n m col).2 with
  | some e =>
    simp [h2] at h
    rcases pikaAttempt_snd_some h2 with ⟨he, _, c, hc, _⟩
    have hkk := he.symm.trans h
    injection hkk with hkk
    exact Or.inl ⟨hkk.symm, by rw [hc]; rfl⟩
  | none =>
    simp [h2] at h
    rcases rabbitpyAttempt_snd_some h with ⟨he, _, c, hc, _⟩
    injection he with he
    exact Or.inr ⟨he, by rw [hc]; rfl⟩

/-- Claim C6: caller-context resolution runs at the fixed depth 3; it
fails with the stack-index error when the live stack is shallower than
that depth, fails with the attribute error when the owning module of the
target frame cannot be determined, and any such failure propagates out
of the emission call with no console event and no publish attempt (no
placeholder context is substituted). -/
theorem context_resolution_failure {χ : Type} (env : Env χ)
    (st : AyumiState χ) (name msg color : String) :
    CONTEXT_DEPTH = 3
    ∧ (env.stk.length ≤ CONTEXT_DEPTH →
        get_calling_details env.stk CONTEXT_DEPTH
          = Except.error CtxError.indexError)
    ∧ (∀ fr, env.stk.get? CONTEXT_DEPTH = some fr → fr.module = none →
        get_calling_details env.stk CONTEXT_DEPTH
          = Except.error CtxError.attributeError)
    ∧ (∀ e, get_calling_details env.stk CONTEXT_DEPTH = Except.error e →
        (emitNamed env st name msg color).events = []
        ∧ (emitNamed env st name msg color).err = some (EmitError.ctx e)) := by
  refine ⟨rfl, ?_, ?_, ?_⟩
  · intro hlen
    have hg : env.stk.get? CONTEXT_DEPTH = none := List.get?_eq_none.mpr hlen
    unfold get_calling_details
    rw [hg]
  · intro fr hfr hmod
    rw [List.get?_eq_getElem?] at hfr
    simp [get_calling_details, hfr, hmod]
  · intro e hg
    have hc : _console (χ := χ) env name msg color
        = Except.error (EmitError.ctx e) := by
      unfold _console
      rw [hg]
    unfold emitNamed
    rw [hc]
    exact ⟨rfl, rfl⟩

/-- Witness for C6 at a concrete input: with an empty live stack the
resolver fails with the index error and the emission call produces no
events. -/
theorem context_resolution_failure_witness :
    get_calling_details envShallow.stk CONTEXT_DEPTH
      = Except.error CtxError.indexError
    ∧ (emitNamed envShallow stNone "info" "m" "").events = [] :=
  ⟨(context_resolution_failure envShallow stNone "info" "m" "").2.1
     (by decide),
   ((context_resolution_failure envShallow stNone "info" "m" "").2.2.2
     CtxError.indexError
     ((context_resolution_failure envShallow stNone "info" "m" "").2.1
       (by decide))).1⟩

/-- Claim C7: when no channel is attached for a broker kind, an emission
call makes no publish attempt for that kind and raises no publish
failure for that kind; the console hand-off still occurs whenever the
console step itself succeeds. -/
theorem absent_sink_skipped {χ : Type} (env : Env χ) (st : AyumiState χ)
    (name msg color : String) :
    (st.pika_channel = none →
       (∀ e : PublishEvent χ,
          Event.publish e ∈ (emitNamed env st name msg color).events →
          e.kind = BrokerKind.rabbitpy)
       ∧ ∀ k, (emitNamed env st name msg color).err
            = some (EmitError.publishFailure k) → k = BrokerKind.rabbitpy)
    ∧ (st.rabbitpy_channel = none →
       (∀ e : PublishEvent χ,
          Event.publish e ∈ (emitNamed env st name msg color).events →
          e.kind = BrokerKind.pika)
       ∧ ∀ k, (emitNamed env st name msg color).err
            = some (EmitError.publishFailure k) → k = BrokerKind.pika)
    ∧ (∀ ev, _console env name msg color = Except.ok ev →
        ev ∈ (emitNamed env st name msg color).events) := by
  have herr : ∀ k, (emitNamed env st name msg color).err
      = some (EmitError.publishFailure k) →
      (k = BrokerKind.pika ∧ st.pika_channel.isSome = true)
      ∨ (k = BrokerKind.rabbitpy ∧ st.rabbitpy_channel.isSome = true) := by
    intro k hk
    rcases emitNamed_events_split env st name msg color with
      ⟨_, e0, hc, herr0⟩ | ⟨ev, hc, _, herr0⟩
    · rw [herr0] at hk
      injection hk with hk
      rcases console_error_shape hc with ⟨ce, hce⟩ | hce <;>
        (rw [hce] at hk; cases hk)
    · rw [herr0] at hk
      exact publish_err_cases hk
  refine ⟨?_, ?_, ?_⟩
  · intro hpn
    constructor
    · intro e he
      rcases eq_of_mem_publish (publish_mem_emitNamed he) with
        ⟨c, hc, hev⟩ | ⟨c, _, hev⟩
      · rw [hpn] at hc
        cases hc
      · simp only [Event.publish.injEq] at hev
        rw [hev]
        rfl
    · intro k hk
      rcases herr k hk with ⟨_, hs⟩ | ⟨hk2, _⟩
      · rw [hpn] at hs
        cases hs
      · exact hk2
  · intro hrn
    constructor
    · intro e he
      rcases eq_of_mem_publish (publish_mem_emitNamed he) with
        ⟨c, _, hev⟩ | ⟨c, hc, hev⟩
      · simp only [Event.publish.injEq] at hev
        rw [hev]
        rfl
      · rw [hrn] at hc
        cases hc
    · intro k hk
      rcases herr k hk with ⟨hk2, _⟩ | ⟨_, hs⟩
      · exact hk2
      · rw [hrn] at hs
        cases hs
  · intro ev hc
    unfold emitNamed
    rw [hc]
    exact List.mem_cons_self _ _

/-- Witness for C7 at a concrete input: with no broker attached, the
console event is still in the trace of `info`. -/
theorem absent_sink_skipped_witness :
    Event.console "info" (consoleLine "" "main.py" "build" "m")
      ∈ (emitNamed envOk stNone "info" "m" "").events :=
  (absent_sink_skipped envOk stNone "info" "m" "").2.2
    (Event.console "info" (consoleLine "" "main.py" "build" "m")) rfl

/-- Is this event a publish attempt of broker kind `k`? -/
def isKind {χ : Type} (k : BrokerKind) : Event χ → Bool
  | Event.publish p => p.kind == k
  | Event.console _ _ => false

/-- Number of publish attempts of broker kind `k` in a trace. -/
def countKind {χ : Type} (evs : List (Event χ)) (k : BrokerKind) : Nat :=
  evs.countP (isKind k)

theorem countKind_cons_console {χ : Type} (lv line : String)
    (l : List (Event χ)) (k : BrokerKind) :
    countKind (Event.console lv line :: l) k = countKind l k := by
  simp [countKind, isKind, List.countP_cons]

theorem countKind_cons_publish {χ : Type} (p : PublishEvent χ)
    (l : List (Event χ)) (k : BrokerKind) :
    countKind (Event.publish p :: l) k
      = countKind l k + (if p.kind = k then 1 else 0) := by
  by_cases h : p.kind = k <;> simp [countKind, isKind, List.countP_cons, h]

theorem countKind_append {χ : Type} (l1 l2 : List (Event χ)) (k : BrokerKind) :
    countKind (l1 ++ l2) k = countKind l1 k + countKind l2 k := by
  simp [countKind, List.countP_append]

theorem pikaAttempt_fst_shape {χ : Type} (env : Env χ) (st : AyumiState χ)
    (n m col : String) :
    (pikaAttempt env st n m col).1 = [] ∨
    ∃ c, st.pika_channel = some c ∧ env.pikaImported = true ∧
      (pikaAttempt env st n m col).1
        = [Event.publish (pikaEvent env c n m col)] := by
  cases hpi : env.pikaImported
  · exact Or.inl (by simp [pikaAttempt, hpi])
  · cases hpc : st.pika_channel with
    | none => exact Or.inl (by simp [pikaAttempt, hpi, hpc])
    | some c => exact Or.inr ⟨c, rfl, rfl, by simp [pikaAttempt, hpi, hpc]⟩

theorem rabbitpyAttempt_fst_shape {χ : Type} (env : Env χ) (st : AyumiState χ)
    (n m col : String) :
    (rabbitpyAttempt env st n m col).1 = [] ∨
    ∃ c, st.rabbitpy_channel = some c ∧ env.rabbitpyImported = true ∧
      (rabbitpyAttempt env st n m col).1
        = [Event.publish (rabbitpyEvent env c n m col)] := by
  cases hpi : env.rabbitpyImported
  · exact Or.inl (by simp [rabbitpyAttempt, hpi])
  · cases hpc : st.rabbitpy_channel with
    | none => exact Or.inl (by simp [rabbitpyAttempt, hpi, hpc])
    | some c =>
      exact Or.inr ⟨c, rfl, rfl, by simp [rabbitpyAttempt, hpi, hpc]⟩

theorem pikaAttempt_fst_of {χ : Type} {env : Env χ} {st : AyumiState χ}
    {n m col : String} {c : χ}
    (hpi : env.pikaImported = true) (hpc : st.pika_channel = some c) :
    (pikaAttempt env st n m col).1
      = [Event.publish (pikaEvent env c n m col)] := by
  simp [pikaAttempt, hpi, hpc]

theorem rabbitpyAttempt_fst_of {χ : Type} {env : Env χ} {st : AyumiState χ}
    {n m col : String} {c : χ}
    (hri : env.rabbitpyImported = true) (hrc : st.rabbitpy_channel = some c) :
    (rabbitpyAttempt env st n m col).1
      = [Event.publish (rabbitpyEvent env c n m col)] := by
  simp [rabbitpyAttempt, hri, hrc]

theorem countKind_pikaAttempt {χ : Type} (env : Env χ) (st : AyumiState χ)
    (n m col : String) :
    countKind (pikaAttempt env st n m col).1 BrokerKind.pika ≤ 1
    ∧ countKind (pikaAttempt env st n m col).1 BrokerKind.rabbitpy = 0 := by
  rcases pikaAttempt_fst_shape env st n m col with h | ⟨c, _, _, h⟩ <;>
    rw [h] <;> constructor <;>
      simp [countKind, List.countP_cons, List.countP_nil, isKind, pikaEvent,
        beq_iff_eq]

theorem countKind_rabbitpyAttempt {χ : Type} (env : Env χ) (st : AyumiState χ)
    (n m col : String) :
    countKind (rabbitpyAttempt env st n m col).1 BrokerKind.rabbitpy ≤ 1
    ∧ countKind (rabbitpyAttempt env st n m col).1 BrokerKind.pika = 0 := by
  rcases rabbitpyAttempt_fst_shape env st n m col with h | ⟨c, _, _, h⟩ <;>
    rw [h] <;> constructor <;>
      simp [countKind, List.countP_cons, List.countP_nil, isKind,
        rabbitpyEvent, beq_iff_eq]

theorem publish_fst_eq {χ : Type} (env : Env χ) (st : AyumiState χ)
    (n m col : String) :
    (_publish env st n m col).1 = (pikaAttempt env st n m col).1 ∨
    (_publish env st n m col).1
      = (pikaAttempt env st n m col).1 ++ (rabbitpyAttempt env st n m col).1 := by
  unfold _publish
  cases h2 : (pikaAttempt env st n m col).2 <;> simp [h2]

theorem publish_snd_none {χ : Type} {env : Env χ} {st : AyumiState χ}
    {n m col : String} (h : (_publish env st n m col).2 = none) :
    (pikaAttempt env st n m col).2 = none
    ∧ (rabbitpyAttempt env st n m col).2 = none
    ∧ (_publish env st n m col).1
      = (pikaAttempt env st n m col).1 ++ (rabbitpyAttempt env st n m col).1 := by
  cases h2 : (pikaAttempt env st n m col).2 with
  | some e =>
    unfold _publish at h
    simp [h2] at h
  | none =>
    refine ⟨rfl, ?_, ?_⟩
    · unfold _publish at h
      simp [h2] at h
      exact h
    · unfold _publish
      simp [h2]

theorem countKind_publish_le_one {χ : Type} (env : Env χ) (st : AyumiState χ)
    (n m col : String) (k : BrokerKind) :
    countKind (_publish env st n m col).1 k ≤ 1 := by
  have hp := countKind_pikaAttempt env st n m col
  have hr := countKind_rabbitpyAttempt env st n m col
  rcases publish_fst_eq env st n m col with h | h <;> rw [h] <;> cases k
  · exact hp.1
  · rw [hp.2]
    exact Nat.zero_le 1
  · rw [countKind_append]
    omega
  · rw [countKind_append]
    omega

theorem countKind_publish_pika {χ : Type} {env : Env χ} {st : AyumiState χ}
    {n m col : String} {c : χ}
    (hpi : env.pikaImported = true) (hpc : st.pika_channel = some c)
    (hnone : (_publish env st n m col).2 = none) :
    countKind (_publish env st n m col).1 BrokerKind.pika = 1 := by
  rcases publish_snd_none hnone with ⟨_, _, hfst⟩
  rw [hfst, countKind_append, pikaAttempt_fst_of hpi hpc,
    (countKind_rabbitpyAttempt env st n m col).2]
  simp [countKind, List.countP_cons, List.countP_nil, isKind, pikaEvent,
    beq_iff_eq]

theorem countKind_publish_rabbitpy {χ : Type} {env : Env χ} {st : AyumiState χ}
    {n m col : String} {c : χ}
    (hri : env.rabbitpyImported = true) (hrc : st.rabbitpy_channel = some c)
    (hnone : (_publish env st n m col).2 = none) :
    countKind (_publish env st n m col).1 BrokerKind.rabbitpy = 1 := by
  rcases publish_snd_none hnone with ⟨_, _, hfst⟩
  rw [hfst, countKind_append, rabbitpyAttempt_fst_of hri hrc,
    (countKind_pikaAttempt env st n m col).2]
  simp [countKind, List.countP_cons, List.countP_nil, isKind,
    rabbitpyEvent, beq_iff_eq]

/-- Claim C8: each broker kind's registry slot is a single
last-write-wins cell (so attaching the same handle twice leaves exactly
that one handle), an emission call never changes the registry, a trace
never contains more than one publish per kind, any publish of a kind
goes to that kind's currently attached handle, and a call that raises
nothing publishes exactly once per attached kind (library imported). -/
theorem sink_registry_semantics {χ : Type} (env : Env χ) (st : AyumiState χ)
    (c1 c2 : Option χ) (name msg color : String) :
    set_pika_channel (set_pika_channel st c1) c2 = set_pika_channel st c2
    ∧ set_rabbitpy_channel (set_rabbitpy_channel st c1) c2
        = set_rabbitpy_channel st c2
    ∧ (emitNamed env st name msg color).state = st
    ∧ (∀ k, countKind (emitNamed env st name msg color).events k ≤ 1)
    ∧ (∀ c e, st.pika_channel = some c →
        Event.publish e ∈ (emitNamed env st name msg color).events →
        e.kind = BrokerKind.pika → e.channel = c)
    ∧ (∀ c e, st.rabbitpy_channel = some c →
        Event.publish e ∈ (emitNamed env st name msg color).events →
        e.kind = BrokerKind.rabbitpy → e.channel = c)
    ∧ ((emitNamed env st name msg color).err = none →
        env.pikaImported = true → ∀ c, st.pika_channel = some c →
        countKind (emitNamed env st name msg color).events BrokerKind.pika
          = 1)
    ∧ ((emitNamed env st name msg color).err = none →
        env.rabbitpyImported = true → ∀ c, st.rabbitpy_channel = some c →
        countKind (emitNamed env st name msg color).events BrokerKind.rabbitpy
          = 1) := by
  refine ⟨rfl, rfl, ?_, ?_, ?_, ?_, ?_, ?_⟩
  · unfold emitNamed
    cases h : _console env name msg color <;> simp
  · intro k
    rcases emitNamed_events_split env st name msg color with
      ⟨hev, _⟩ | ⟨ev, hc, hev, _⟩
    · rw [hev]
      exact Nat.zero_le 1
    · rcases console_ok_shape hc with ⟨d, _, _, hshape⟩
      rw [hev, hshape, countKind_cons_console]
      exact countKind_publish_le_one env st name msg color k
  · intro c e hpc hmem hkind
    rcases eq_of_mem_publish (publish_mem_emitNamed hmem) with
      ⟨c2, hc2, hev⟩ | ⟨c2, hc2, hev⟩
    · simp only [Event.publish.injEq] at hev
      have hcc := hpc.symm.trans hc2
      injection hcc with hcc
      rw [hev]
      exact hcc.symm
    · simp only [Event.publish.injEq] at hev
      rw [hev] at hkind
      simp [rabbitpyEvent] at hkind
  · intro c e hrc hmem hkind
    rcases eq_of_mem_publish (publish_mem_emitNamed hmem) with
      ⟨c2, hc2, hev⟩ | ⟨c2, hc2, hev⟩
    · simp only [Event.publish.injEq] at hev
      rw [hev] at hkind
      simp [pikaEvent] at hkind
    · simp only [Event.publish.injEq] at hev
      have hcc := hrc.symm.trans hc2
      injection hcc with hcc
      rw [hev]
      exact hcc.symm
  · intro herr hpi c hpc
    rcases emitNamed_events_split env st name msg color with
      ⟨_, e0, _, herr0⟩ | ⟨ev, hc, hev, herr0⟩
    · rw [herr0] at herr
      cases herr
    · rcases console_ok_shape hc with ⟨d, _, _, hshape⟩
      rw [hev, hshape, countKind_cons_console]
      rw [herr0] at herr
      exact countKind_publish_pika hpi hpc herr
  · intro herr hri c hrc
    rcases emitNamed_events_split env st name msg color with
      ⟨_, e0, _, herr0⟩ | ⟨ev, hc, hev, herr0⟩
    · rw [herr0] at herr
      cases herr
    · rcases console_ok_shape hc with ⟨d, _, _, hshape⟩
      rw [hev, hshape, countKind_cons_console]
      rw [herr0] at herr
      exact countKind_publish_rabbitpy hri hrc herr

/-- Witness for C8 at a concrete input: a successful `info` call with
both sinks attached publishes exactly once to pika. -/
theorem sink_registry_semantics_witness :
    countKind (emitNamed envOk stBoth "info" "m" "").events BrokerKind.pika
      = 1 :=
  (sink_registry_semantics envOk stBoth none none "info" "m" "").2.2.2.2.2.2.1
    rfl rfl 1 rfl

/-- Claim C9: every publish attempt made by a severity-named entry point
carries the lower-cased name of that entry point as its routing key (the
names are already lower-case, so the key equals the name); in particular
every publish of the `error` entry point uses routing key `"error"`. -/
theorem routing_key_is_severity_name {χ : Type} (env : Env χ)
    (st : AyumiState χ) (msg color : String) :
    (∀ nm, nm ∈ emissionMethods →
       ∀ e : PublishEvent χ,
         Event.publish e ∈ (emitNamed env st nm msg color).events →
         e.routing_key = strLower nm ∧ e.routing_key = nm)
    ∧ (∀ e : PublishEvent χ,
         Event.publish e ∈ (error env st msg color).events →
         e.routing_key = "error") := by
  have key : ∀ (nm : String) (e : PublishEvent χ),
      Event.publish e ∈ (emitNamed env st nm msg color).events →
      e.routing_key = strLower nm := by
    intro nm e hmem
    rcases eq_of_mem_publish (publish_mem_emitNamed hmem) with
      ⟨c, _, hev⟩ | ⟨c, _, hev⟩ <;>
      (simp only [Event.publish.injEq] at hev; rw [hev]; rfl)
  refine ⟨?_, ?_⟩
  · intro nm hnm e hmem
    refine ⟨key nm e hmem, ?_⟩
    have hl : strLower nm = nm := by
      fin_cases hnm <;> rfl
    rw [← hl]
    exact key nm e hmem
  · intro e hmem
    have h := key "error" e hmem
    rw [h]
    rfl

/-- Witness for C9 at a concrete input: the pika publish of an `error`
call carries routing key `"error"`. -/
theorem routing_key_is_severity_name_witness :
    (pikaEvent envOk 1 "error" "m" "").routing_key = "error" :=
  (routing_key_is_severity_name envOk stBoth "m" "").2
    (pikaEvent envOk 1 "error" "m" "")
    (List.mem_cons_of_mem _
      (mem_publish_split.mpr (Or.inl (mem_pikaAttempt.mpr ⟨rfl, 1, rfl, rfl⟩))))

/-- Claim C10 counterexample: with a valid caller stack and both brokers
attached, `notset` produces no console event, no publish, and escapes
with the attribute failure of `getattr(cls.logger, "notset")` — the
logging backend has no `notset` method — while `info` under the same
conditions completes without error. -/
theorem notset_counterexample :
    (notset envOk stBoth "m" "").events = []
    ∧ (notset envOk stBoth "m" "").err = some (EmitError.attr "notset")
    ∧ (info envOk stBoth "m" "").err = none :=
  ⟨rfl, rfl, rfl⟩

/-- Claim C10 amended: the interface does expose `notset(msg, color="")`
among the emission entry points, dispatching the shared
console-then-publish body under its own name, but it never behaves like
the other entry points: its console hand-off always fails (the backend
logger has no `notset` method, and the context-resolution step can only
fail earlier), so every `notset` call raises, produces no console event
and makes no broker publish — no publish with routing key `"notset"`
ever happens. -/
theorem notset_raises {χ : Type} (env : Env χ) (st : AyumiState χ)
    (msg color : String) :
    "notset" ∈ emissionMethods
    ∧ notset env st msg color = emitNamed env st "notset" msg color
    ∧ (notset env st msg color).events = []
    ∧ (notset env st msg color).err.isSome = true := by
  have hc : ∃ e, _console env "notset" msg color = Except.error e := by
    unfold _console
    cases hg : get_calling_details env.stk CONTEXT_DEPTH with
    | error e => exact ⟨EmitError.ctx e, rfl⟩
    | ok d =>
      refine ⟨EmitError.attr "notset", ?_⟩
      have hnm : ¬ ("notset" ∈ loggerMethods) := by decide
      simp [hnm]
  rcases hc with ⟨e, hce⟩
  refine ⟨by decide, rfl, ?_, ?_⟩
  · unfold notset emitNamed
    rw [hce]
  · unfold notset emitNamed
    rw [hce]
    rfl

end Ayumi
